import Mathlib

/-!
Verification of the BossUp front-end session/authorization layer
(`frontend/assets/js/api.js`) by shallow embedding.

The embedding models:
  * browser `localStorage` as an association list of string keys to string
    values (`Store`), with `getItem` / `setItem` / `removeItem`;
  * JavaScript values produced by `JSON.parse` as the inductive type `Json`
    (numbers restricted to integers; no floating point appears in any claim);
  * `JSON.stringify` / `JSON.parse` as executable functions `Json.stringify`
    and `Json.parse` (a recursive-descent parser with a fuel bound equal to
    the input length, enough for every parse since every step consumes input);
  * the `TokenManager` object, the `API.request` / `API.login` / `API.signup`
    methods and the `requireAuth` / `redirectToDashboard` guards as functions
    over an explicit `World` (store plus last `window.location.href`
    assignment), taking the simulated HTTP `Response` as a parameter.

JavaScript truthiness (`!!token`, `data.detail || fallback`, `if (response)`)
is modelled exactly by `jsTruthy`, and `String(v)` coercion by `jsToString`.
-/

/-- JavaScript values as produced by `JSON.parse` / consumed by
`JSON.stringify`.  Numbers are modelled as integers: no claim involves
fractional numeric literals. -/
inductive Json where
  | null : Json
  | bool : Bool → Json
  | num : Int → Json
  | str : String → Json
  | arr : List Json → Json
  | obj : List (String × Json) → Json

namespace Json

/-- Decimal digit to its character, as printed by `JSON.stringify`. -/
def decDigit (n : Nat) : Char :=
  match n with
  | 0 => '0' | 1 => '1' | 2 => '2' | 3 => '3' | 4 => '4'
  | 5 => '5' | 6 => '6' | 7 => '7' | 8 => '8' | _ => '9'

/-- Character to decimal digit value. -/
def digitVal (c : Char) : Nat := c.toNat - 48

/-- Strong induction on naturals, specialized for the decimal lemmas below. -/
theorem natRecStrong (P : Nat → Prop) (step : ∀ k, (∀ j, j < k → P j) → P k) :
    ∀ n, P n :=
  fun n => Nat.strong_induction_on n step

/-- Decimal printing of a natural number (accumulator form). -/
def natCharsAux (n : Nat) (acc : List Char) : List Char :=
  if h : n < 10 then decDigit n :: acc
  else natCharsAux (n / 10) (decDigit (n % 10) :: acc)
  termination_by n
  decreasing_by exact Nat.div_lt_self (by omega) (by decide)

/-- Decimal printing of a natural number. -/
def natChars (n : Nat) : List Char := natCharsAux n []

/-- Decimal printing of an integer, as `JSON.stringify` prints it. -/
def intChars : Int → List Char
  | .ofNat m => natChars m
  | .negSucc m => '-' :: natChars (m + 1)

/-- String-character escaping as performed by `JSON.stringify`: quote and
backslash are escaped; other characters are emitted verbatim. -/
def escapeChar (c : Char) : List Char :=
  if c = '"' then ['\\', '"']
  else if c = '\\' then ['\\', '\\']
  else [c]

/-- Escape a character list. -/
def escapeChars (cs : List Char) : List Char :=
  cs.foldr (fun c acc => escapeChar c ++ acc) []

/-- A JSON string literal, quotes included. -/
def strChars (s : String) : List Char :=
  '"' :: escapeChars s.data ++ ['"']

mutual

/-- Characters of `JSON.stringify` applied to a value. -/
def stringifyChars : Json → List Char
  | .str s => strChars s
  | .num n => intChars n
  | .arr xs => '[' :: stringifyArr xs ++ [']']
  | .obj fs => '\x7b' :: stringifyObj fs ++ ['\x7d']
  | .null => ['n', 'u', 'l', 'l']
  | .bool false => '\x66' :: ['a', 'l', 's', 'e']
  | .bool true => ['t', 'r', 'u', 'e']

/-- Characters of the element list of an array (no brackets). -/
def stringifyArr : List Json → List Char
  | [] => []
  | x :: xs => stringifyChars x ++ stringifyArrTail xs

/-- Characters of the remaining elements of an array, each comma-prefixed. -/
def stringifyArrTail : List Json → List Char
  | [] => []
  | x :: xs => ',' :: stringifyChars x ++ stringifyArrTail xs

/-- Characters of the field list of an object (no braces). -/
def stringifyObj : List (String × Json) → List Char
  | [] => []
  | (k, v) :: fs => strChars k ++ ':' :: stringifyChars v ++ stringifyObjTail fs

/-- Characters of the remaining fields of an object, each comma-prefixed. -/
def stringifyObjTail : List (String × Json) → List Char
  | [] => []
  | (k, v) :: fs => ',' :: strChars k ++ ':' :: stringifyChars v ++ stringifyObjTail fs

end

/-- `JSON.stringify`. -/
def stringify (j : Json) : String := String.mk (stringifyChars j)

end Json

namespace Json

/-- Unescaping of a character following a backslash inside a JSON string
literal (the escapes `JSON.parse` accepts, minus `\uXXXX`, which no claim
exercises). -/
def unescape (c : Char) : Option Char :=
  if c = '"' then some '"'
  else if c = '\\' then some '\\'
  else if c = '/' then some '/'
  else if c = 'n' then some '\n'
  else if c = 't' then some '\t'
  else if c = 'r' then some '\r'
  else if c = 'b' then some (Char.ofNat 8)
  else if c = 'f' then some (Char.ofNat 12)
  else none

/-- Parse the body of a JSON string literal (the opening quote already
consumed), up to and including the closing quote.  Returns the decoded
characters and the remaining input. -/
def parseStrBody : List Char → Option (List Char × List Char)
  | [] => none
  | c :: rest =>
    if c = '"' then some ([], rest)
    else if c = '\\' then
      match rest with
      | [] => none
      | e :: rest2 =>
        match unescape e with
        | none => none
        | some u =>
          match parseStrBody rest2 with
          | none => none
          | some (s, r) => some (u :: s, r)
    else
      match parseStrBody rest with
      | none => none
      | some (s, r) => some (c :: s, r)

/-- Consume a maximal run of decimal digits, MSD-first accumulator style. -/
def parseDigitsAux (acc : Nat) : List Char → Nat × List Char
  | [] => (acc, [])
  | c :: rest =>
    if c.isDigit then parseDigitsAux (acc * 10 + digitVal c) rest
    else (acc, c :: rest)

/-- Parse a nonempty run of decimal digits into a natural number. -/
def parseNatNum : List Char → Option (Nat × List Char)
  | [] => none
  | c :: rest =>
    if c.isDigit then some (parseDigitsAux (digitVal c) rest)
    else none

/-- Consume an expected literal character sequence. -/
def eatLit : List Char → List Char → Option (List Char)
  | [], input => some input
  | _ :: _, [] => none
  | c :: p, d :: input => if c = d then eatLit p input else none

mutual

/-- Fuel-indexed recursive-descent parser for a single JSON value.  Fuel
`input.length + 1` always suffices (each recursive level consumes at least
one character of input). -/
def parseValueF : Nat → List Char → Option (Json × List Char)
  | 0, _ => none
  | _ + 1, [] => none
  | f + 1, c :: rest =>
    if c = 'n' then
      match eatLit ['u', 'l', 'l'] rest with
      | some r => some (.null, r)
      | none => none
    else if c = 't' then
      match eatLit ['r', 'u', 'e'] rest with
      | some r => some (.bool true, r)
      | none => none
    else if c = 'f' then
      match eatLit ['a', 'l', 's', 'e'] rest with
      | some r => some (.bool false, r)
      | none => none
    else if c = '"' then
      match parseStrBody rest with
      | some (s, r) => some (.str (String.mk s), r)
      | none => none
    else if c = '-' then
      match parseNatNum rest with
      | some (n, r) => some (.num (-(n : Int)), r)
      | none => none
    else if c = '[' then parseArrF f rest
    else if c = '\x7b' then parseObjF f rest
    else if c.isDigit then
      match parseNatNum (c :: rest) with
      | some (n, r) => some (.num (n : Int), r)
      | none => none
    else none

/-- Parse the inside of an array, the opening bracket already consumed. -/
def parseArrF : Nat → List Char → Option (Json × List Char)
  | 0, _ => none
  | f + 1, input =>
    if input.head? = some ']' then some (.arr [], input.tail)
    else
      match parseValueF f input with
      | none => none
      | some (x, r) =>
        match parseArrTailF f r with
        | none => none
        | some (xs, r2) => some (.arr (x :: xs), r2)

/-- Parse `]`, or a comma-prefixed further element list of an array. -/
def parseArrTailF : Nat → List Char → Option (List Json × List Char)
  | 0, _ => none
  | f + 1, input =>
    if input.head? = some ']' then some ([], input.tail)
    else if input.head? = some ',' then
      match parseValueF f input.tail with
      | none => none
      | some (x, r) =>
        match parseArrTailF f r with
        | none => none
        | some (xs, r2) => some (x :: xs, r2)
    else none

/-- Parse the inside of an object, the opening brace already consumed. -/
def parseObjF : Nat → List Char → Option (Json × List Char)
  | 0, _ => none
  | f + 1, input =>
    if input.head? = some '\x7d' then some (.obj [], input.tail)
    else
      match parseFieldF f input with
      | none => none
      | some (k, v, r) =>
        match parseObjTailF f r with
        | none => none
        | some (fs, r2) => some (.obj ((k, v) :: fs), r2)

/-- Parse one `"key":value` field of an object. -/
def parseFieldF : Nat → List Char → Option (String × Json × List Char)
  | 0, _ => none
  | f + 1, input =>
    if input.head? = some '"' then
      match parseStrBody input.tail with
      | none => none
      | some (k, r) =>
        if r.head? = some ':' then
          match parseValueF f r.tail with
          | none => none
          | some (v, r2) => some (String.mk k, v, r2)
        else none
    else none

/-- Parse `}` or a comma-prefixed further field list of an object. -/
def parseObjTailF : Nat → List Char → Option (List (String × Json) × List Char)
  | 0, _ => none
  | f + 1, input =>
    if input.head? = some '\x7d' then some ([], input.tail)
    else if input.head? = some ',' then
      match parseFieldF f input.tail with
      | none => none
      | some (k, v, r) =>
        match parseObjTailF f r with
        | none => none
        | some (fs, r2) => some ((k, v) :: fs, r2)
    else none

end

/-- `JSON.parse`: parses the whole string as one JSON value; `none` models a
thrown `SyntaxError` (including trailing garbage). -/
def parse (s : String) : Option Json :=
  match parseValueF (s.data.length + 1) s.data with
  | some (j, []) => some j
  | _ => none

end Json

/-! ## Browser `localStorage` model -/

/-- `localStorage`: an association list of string keys to string values. -/
def Store := List (String × String)

namespace Store

/-- `localStorage.getItem(k)`: the stored value, or `none` for JS `null`. -/
def getItem (s : Store) (k : String) : Option String :=
  match List.find? (fun p => p.1 == k) s with
  | some p => some p.2
  | none => none

/-- `localStorage.setItem(k, v)`. -/
def setItem (s : Store) (k : String) (v : String) : Store :=
  List.filter (fun p => !(p.1 == k)) s ++ [(k, v)]

/-- `localStorage.removeItem(k)`. -/
def removeItem (s : Store) (k : String) : Store :=
  List.filter (fun p => !(p.1 == k)) s

end Store

/-! ## JavaScript value helpers -/

namespace Json

/-- JavaScript truthiness of a JSON value. -/
def jsTruthy : Json → Bool
  | .null => false
  | .bool b => b
  | .num n => n != 0
  | .str s => s != ""
  | .arr _ => true
  | .obj _ => true

mutual

/-- JavaScript `String(v)` coercion of a JSON value. -/
def jsToString : Json → String
  | .null => "null"
  | .bool true => "true"
  | .bool false => "false"
  | .num n => String.mk (intChars n)
  | .str s => s
  | .arr xs => jsToStringArr xs
  | .obj _ => "[object Object]"

/-- `Array.prototype.toString`: elements joined by commas, `null` elements
rendered as the empty string. -/
def jsToStringArr : List Json → String
  | [] => ""
  | [x] => jsToStringElem x
  | x :: y :: xs => jsToStringElem x ++ "," ++ jsToStringArr (y :: xs)

/-- A single array element inside `Array.prototype.toString`. -/
def jsToStringElem : Json → String
  | .null => ""
  | x => jsToString x

end

/-- JavaScript property access `v.k` on a parsed JSON value: `none` models
`undefined`.  On an object built by `JSON.parse`, a duplicated key keeps its
last occurrence, hence the reversed search. -/
def getField (j : Json) (k : String) : Option Json :=
  match j with
  | .obj fs =>
    match List.find? (fun p => p.1 == k) fs.reverse with
    | some p => some p.2
    | none => none
  | _ => none

/-- JavaScript `String(v)` where `v` may be `undefined`. -/
def jsToStringU : Option Json → String
  | none => "undefined"
  | some v => jsToString v

end Json

/-! ## `TokenManager` (api.js lines 16-46) -/

namespace TokenManager

/-- `TokenManager.getToken()`: `localStorage.getItem('bossup_token')`. -/
def getToken (s : Store) : Option String := Store.getItem s "bossup_token"

/-- `TokenManager.setToken(token)`. -/
def setToken (s : Store) (token : String) : Store :=
  Store.setItem s "bossup_token" token

/-- `TokenManager.removeToken()`. -/
def removeToken (s : Store) : Store := Store.removeItem s "bossup_token"

/-- `TokenManager.getUserData()`: `data ? JSON.parse(data) : null`.
`Except.error ()` models the uncaught `SyntaxError` thrown by `JSON.parse`
on a stored value that is not valid JSON; the stored empty string is falsy
in JavaScript, so it yields `null` rather than a parse attempt. -/
def getUserData (s : Store) : Except Unit (Option Json) :=
  match Store.getItem s "bossup_user" with
  | none => .ok none
  | some data =>
    if data = "" then .ok none
    else
      match Json.parse data with
      | some j => .ok (some j)
      | none => .error ()

/-- `TokenManager.setUserData(data)`: stores `JSON.stringify(data)`. -/
def setUserData (s : Store) (data : Json) : Store :=
  Store.setItem s "bossup_user" (Json.stringify data)

/-- `TokenManager.clearAll()`: removes both keys. -/
def clearAll (s : Store) : Store :=
  Store.removeItem (Store.removeItem s "bossup_token") "bossup_user"

/-- `TokenManager.isAuthenticated()`: `!!this.getToken()` — JavaScript
truthiness of the stored token (`null` and the empty string are falsy). -/
def isAuthenticated (s : Store) : Bool :=
  match getToken s with
  | none => false
  | some t => t != ""

end TokenManager

/-! ## JavaScript object-literal header maps -/

/-- Assignment `m[k] = v` on a JavaScript object (also how object spread
copies one property): overwrites in place, or appends a new key. -/
def jsObjSet (m : List (String × String)) (k v : String) : List (String × String) :=
  if (List.find? (fun p => p.1 == k) m).isSome then
    m.map (fun p => if p.1 == k then (k, v) else p)
  else m ++ [(k, v)]

/-- Property read `m[k]` on a JavaScript object. -/
def jsObjGet (m : List (String × String)) (k : String) : Option String :=
  match List.find? (fun p => p.1 == k) m with
  | some p => some p.2
  | none => none

/-! ## `API` client (api.js lines 49-143) -/

/-- The options argument of `API.request` (the parts `fetch` consumes). -/
structure RequestOptions where
  method : Option String
  body : Option String
  headers : List (String × String)

/-- A simulated HTTP response: status code and raw body text. -/
structure Response where
  status : Nat
  body : String

/-- The argument actually handed to `fetch`. -/
structure FetchCall where
  url : String
  method : Option String
  body : Option String
  headers : List (String × String)

/-- Mutable browser state touched by the client: the `localStorage` store and
the last assignment to `window.location.href` (a recorded redirect). -/
structure World where
  store : Store
  location : Option String

/-- Outcome of an `API.request` call: `ok` is a normal return (`ok none` is
the `null` sentinel), `failure msg` is a thrown `new Error(msg)`, `jsonError`
is the rejection of `response.json()` on a non-JSON body, and `typeError` is
the TypeError thrown by `data.detail` when the parsed body is bare `null`. -/
inductive RequestResult where
  | ok : Option Json → RequestResult
  | failure : String → RequestResult
  | jsonError : RequestResult
  | typeError : RequestResult

/-- `API_BASE_URL` constant. -/
def API_BASE_URL : String := "http://localhost:8000"

/-- `response.ok`: status in the success range [200, 300). -/
def respOk (status : Nat) : Bool :=
  decide (200 ≤ status) && decide (status < 300)

/-- Message of the error thrown on a non-ok response:
`data.detail || 'Request failed'`, with JavaScript truthiness and `String()`
coercion of the thrown `Error`'s message argument. -/
def errorDetailMsg (data : Json) : String :=
  match Json.getField data "detail" with
  | some d => if Json.jsTruthy d then Json.jsToString d else "Request failed"
  | none => "Request failed"

/-- The exception raised by `throw new Error(data.detail || 'Request failed')`:
evaluating `data.detail` itself throws a TypeError when `data` is `null`;
otherwise an `Error` carrying the detail-or-fallback message is thrown. -/
def raisedError (data : Json) : RequestResult :=
  match data with
  | .null => .typeError
  | _ => .failure (errorDetailMsg data)

/-- Header construction in `API.request`: a JSON content-type default, the
caller's headers spread over it (so they can overwrite it), then the bearer
token assigned on top when the stored token is truthy. -/
def buildHeaders (s : Store) (optHeaders : List (String × String)) : List (String × String) :=
  let base := jsObjSet [] "Content-Type" "application/json"
  let merged := optHeaders.foldl (fun acc kv => jsObjSet acc kv.1 kv.2) base
  match TokenManager.getToken s with
  | some t => if t != "" then jsObjSet merged "Authorization" ("Bearer " ++ t) else merged
  | none => merged

namespace API

/-- `API.request(endpoint, options)` applied to a simulated response.
Returns the `fetch` call it issued, the world after its side effects, and
its outcome. -/
def request (w : World) (endpoint : String) (options : RequestOptions)
    (resp : Response) : FetchCall × World × RequestResult :=
  let url := API_BASE_URL ++ endpoint
  let headers := buildHeaders w.store options.headers
  let fc : FetchCall := ⟨url, options.method, options.body, headers⟩
  if resp.status = 401 then
    (fc, ⟨TokenManager.clearAll w.store, some "/login.html"⟩, .ok none)
  else
    match Json.parse resp.body with
    | none => (fc, w, .jsonError)
    | some data =>
      if respOk resp.status then (fc, w, .ok (some data))
      else (fc, w, raisedError data)

/-- The object `{user_id: response.user_id, role: response.role}` as
`JSON.stringify` serializes it: a property whose value is `undefined`
(a missing response field) is omitted from the output. -/
def userFields (data : Json) : List (String × Json) :=
  (match Json.getField data "user_id" with
   | some v => [("user_id", v)]
   | none => []) ++
  (match Json.getField data "role" with
   | some v => [("role", v)]
   | none => [])

/-- The persistence block shared by `login` and `signup`:
`TokenManager.setToken(response.access_token)` (with `localStorage.setItem`
coercing its value through `String()`) followed by
`TokenManager.setUserData({user_id, role})`. -/
def persistAuth (s : Store) (data : Json) : Store :=
  TokenManager.setUserData
    (TokenManager.setToken s (Json.jsToStringU (Json.getField data "access_token")))
    (Json.obj (userFields data))

/-- `API.login(email, password)` applied to a simulated response: calls
`request` with the POST body, then `if (response)` persists token and
identity. -/
def login (w : World) (email password : String) (resp : Response) :
    FetchCall × World × RequestResult :=
  let bodyJson := Json.obj [("email", .str email), ("password", .str password)]
  let r := request w "/auth/login" ⟨some "POST", some (Json.stringify bodyJson), []⟩ resp
  match r.2.2 with
  | .ok (some data) =>
    if Json.jsTruthy data then
      (r.1, ⟨persistAuth r.2.1.store data, r.2.1.location⟩, .ok (some data))
    else r
  | _ => r

/-- `API.signup(email, password, role, country, fullName)` applied to a
simulated response; identical persistence to `login`. -/
def signup (w : World) (email password role country : String)
    (fullName : Option String) (resp : Response) :
    FetchCall × World × RequestResult :=
  let bodyJson := Json.obj
    [("email", .str email), ("password", .str password), ("role", .str role),
     ("country", .str country),
     ("full_name", match fullName with | some n => .str n | none => .null)]
  let r := request w "/auth/signup" ⟨some "POST", some (Json.stringify bodyJson), []⟩ resp
  match r.2.2 with
  | .ok (some data) =>
    if Json.jsTruthy data then
      (r.1, ⟨persistAuth r.2.1.store data, r.2.1.location⟩, .ok (some data))
    else r
  | _ => r

end API

/-! ## Authorization guard (api.js lines 262-292) -/

/-- `redirectToDashboard(role)` as the URL it assigns: a JavaScript `switch`
compares with strict equality, so only the exact role strings match and any
other value falls to the default home page. -/
def redirectToDashboard (role : Option Json) : String :=
  match role with
  | some (.str "INVESTOR") => "/investor-dashboard.html"
  | some (.str "BUSINESS_OWNER") => "/business-dashboard.html"
  | some (.str "ADMIN") => "/admin.html"
  | _ => "/index.html"

/-- `allowedRoles.includes(userData?.role)`: `Array.prototype.includes` uses
strict (SameValueZero) equality, so only a string role can match. -/
def roleMember (rs : List String) (role : Option Json) : Bool :=
  match role with
  | some (.str r) => rs.contains r
  | _ => false

/-- `userData?.role`: optional chaining on the decoded identity, `none`
modelling `undefined`. -/
def roleOf (userData : Option Json) : Option Json :=
  match userData with
  | none => none
  | some u => Json.getField u "role"

/-- `requireAuth(allowedRoles)`: the returned world carries any redirect it
issued.  `Except.error ()` models the uncaught exception thrown by
`TokenManager.getUserData()` on a corrupted stored identity. -/
def requireAuth (w : World) (allowedRoles : Option (List String)) :
    Except Unit (World × Bool) :=
  if TokenManager.isAuthenticated w.store = false then
    .ok (⟨w.store, some "/login.html"⟩, false)
  else
    match TokenManager.getUserData w.store with
    | .error e => .error e
    | .ok userData =>
      match allowedRoles with
      | some rs =>
        if roleMember rs (roleOf userData) = false then
          .ok (⟨w.store, some (redirectToDashboard (roleOf userData))⟩, false)
        else .ok (w, true)
      | none => .ok (w, true)

/-- The Session Store mutations available to callers between which a
`clear()` may be interleaved: `setToken` and `setUserData`. -/
inductive SessionOp where
  | setTok : String → SessionOp
  | setId : Json → SessionOp

/-- Apply one session operation to the store. -/
def applyOp (s : Store) : SessionOp → Store
  | .setTok t => TokenManager.setToken s t
  | .setId j => TokenManager.setUserData s j

/-- Apply a sequence of session operations, left to right. -/
def applyOps (s : Store) (ops : List SessionOp) : Store := ops.foldl applyOp s

/-! ## Parser/printer roundtrip: helper lemmas -/

namespace Json

theorem isDigit_digitChar (k : Nat) (h : k < 10) : (decDigit k).isDigit = true := by
  interval_cases k <;> decide

theorem digitVal_digitChar (k : Nat) (h : k < 10) : digitVal (decDigit k) = k := by
  interval_cases k <;> decide

theorem natCharsAux_acc (n : Nat) : ∀ acc, natCharsAux n acc = natCharsAux n [] ++ acc := by
  induction n using natRecStrong with
  | step n ih =>
    intro acc
    by_cases h : n < 10
    · rw [natCharsAux]
      conv_rhs => rw [natCharsAux]
      simp [h]
    · rw [natCharsAux]
      conv_rhs => rw [natCharsAux]
      simp only [h, dite_false]
      have hlt : n / 10 < n := Nat.div_lt_self (by omega) (by decide)
      rw [ih (n / 10) hlt (decDigit (n % 10) :: acc),
        ih (n / 10) hlt (decDigit (n % 10) :: [])]
      simp

theorem natChars_split (n : Nat) (h : ¬ n < 10) :
    natChars n = natChars (n / 10) ++ [decDigit (n % 10)] := by
  rw [natChars, natCharsAux]
  simp only [h, dite_false]
  exact natCharsAux_acc (n / 10) [decDigit (n % 10)]

theorem natChars_all_digit (n : Nat) : ∀ c ∈ natChars n, c.isDigit = true := by
  induction n using natRecStrong with
  | step n ih =>
    intro c hc
    by_cases h : n < 10
    · rw [natChars, natCharsAux] at hc
      simp [h] at hc
      subst hc
      exact isDigit_digitChar n h
    · rw [natChars_split n h] at hc
      rcases List.mem_append.mp hc with h1 | h1
      · exact ih (n / 10) (Nat.div_lt_self (by omega) (by decide)) c h1
      · simp at h1
        subst h1
        exact isDigit_digitChar (n % 10) (Nat.mod_lt n (by omega))

theorem natChars_cons (n : Nat) : ∃ d ds, natChars n = d :: ds ∧ d.isDigit = true := by
  induction n using natRecStrong with
  | step n ih =>
    by_cases h : n < 10
    · refine ⟨decDigit n, [], ?_, isDigit_digitChar n h⟩
      rw [natChars, natCharsAux]
      simp [h]
    · obtain ⟨d, ds, hds, hdig⟩ := ih (n / 10) (Nat.div_lt_self (by omega) (by decide))
      refine ⟨d, ds ++ [decDigit (n % 10)], ?_, hdig⟩
      rw [natChars_split n h, hds]
      simp

/-- Value of a digit run, MSD-first with an accumulator. -/
def digitsVal (acc : Nat) (ds : List Char) : Nat :=
  ds.foldl (fun a c => a * 10 + digitVal c) acc

theorem digitsVal_natChars (n : Nat) : digitsVal 0 (natChars n) = n := by
  induction n using natRecStrong with
  | step n ih =>
    by_cases h : n < 10
    · rw [natChars, natCharsAux]
      simp [h, digitsVal, digitVal_digitChar n h]
    · rw [natChars_split n h]
      rw [digitsVal, List.foldl_append]
      have := ih (n / 10) (Nat.div_lt_self (by omega) (by decide))
      rw [digitsVal] at this
      rw [this]
      simp [digitVal_digitChar (n % 10) (Nat.mod_lt n (by omega))]
      omega

theorem parseDigitsAux_spec (ds : List Char) :
    ∀ acc rest, (∀ c ∈ ds, c.isDigit = true) →
      (∀ c, rest.head? = some c → c.isDigit = false) →
      parseDigitsAux acc (ds ++ rest) = (digitsVal acc ds, rest) := by
  induction ds with
  | nil =>
    intro acc rest _ hrest
    cases rest with
    | nil => simp [parseDigitsAux, digitsVal]
    | cons c r =>
      have := hrest c (by simp)
      simp [parseDigitsAux, this, digitsVal]
  | cons d ds ih =>
    intro acc rest hds hrest
    have hd : d.isDigit = true := hds d (by simp)
    rw [List.cons_append, parseDigitsAux]
    simp only [hd, if_true]
    rw [ih (acc * 10 + digitVal d) rest (fun c hc => hds c (by simp [hc])) hrest]
    simp [digitsVal]

theorem parseNatNum_natChars (n : Nat) (rest : List Char)
    (hrest : ∀ c, rest.head? = some c → c.isDigit = false) :
    parseNatNum (natChars n ++ rest) = some (n, rest) := by
  obtain ⟨d, ds, hds, hdig⟩ := natChars_cons n
  rw [hds, List.cons_append, parseNatNum]
  simp only [hdig, if_true]
  rw [parseDigitsAux_spec ds (digitVal d) rest
    (fun c hc => natChars_all_digit n c (by rw [hds]; simp [hc])) hrest]
  have : digitsVal (digitVal d) ds = digitsVal 0 (d :: ds) := by
    simp [digitsVal]
  rw [this, ← hds, digitsVal_natChars n]

theorem eatLit_self (p : List Char) : ∀ input, eatLit p (p ++ input) = some input := by
  induction p with
  | nil => intro input; rfl
  | cons c p ih => intro input; simp [eatLit, ih]

theorem parseStrBody_round (cs : List Char) :
    ∀ rest, parseStrBody (escapeChars cs ++ '"' :: rest) = some (cs, rest) := by
  induction cs with
  | nil =>
    intro rest
    show parseStrBody ('"' :: rest) = some ([], rest)
    rw [parseStrBody.eq_def]
    simp
  | cons c cs ih =>
    intro rest
    have hesc : escapeChars (c :: cs) = escapeChar c ++ escapeChars cs := by
      simp [escapeChars]
    rw [hesc]
    by_cases hq : c = '"'
    · subst hq
      show parseStrBody ('\\' :: '"' :: (escapeChars cs ++ '"' :: rest)) = _
      rw [parseStrBody.eq_def]
      simp [unescape, ih rest]
    · by_cases hb : c = '\\'
      · subst hb
        show parseStrBody ('\\' :: '\\' :: (escapeChars cs ++ '"' :: rest)) = _
        rw [parseStrBody.eq_def]
        simp [unescape, ih rest]
      · rw [escapeChar]
        simp only [hq, hb, if_false]
        rw [List.cons_append, parseStrBody.eq_def]
        simp [hq, hb, ih rest]

theorem digit_ne_marks (c : Char) (h : c.isDigit = true) :
    (¬ c = 'n') ∧ (¬ c = 't') ∧ (¬ c = 'f') ∧ (¬ c = '"') ∧ (¬ c = '-') ∧
    (¬ c = '[') ∧ (¬ c = '\x7b') ∧ (¬ c = ']') ∧ (¬ c = ',') ∧ (¬ c = '\x7d') := by
  have hc : ∀ x : Char, x.isDigit = false → ¬ c = x := by
    intro x hx he
    rw [he] at h
    rw [h] at hx
    cases hx
  exact ⟨hc 'n' rfl, hc 't' rfl, hc 'f' rfl, hc '"' rfl, hc '-' rfl,
    hc '[' rfl, hc '\x7b' rfl, hc ']' rfl, hc ',' rfl, hc '\x7d' rfl⟩

theorem stringify_head (j : Json) :
    ∃ c tl, stringifyChars j = c :: tl ∧ ¬ c = ']' := by
  cases j with
  | null => exact ⟨'n', _, rfl, by simp⟩
  | bool b =>
    cases b
    · exact ⟨'f', _, rfl, by simp⟩
    · exact ⟨'t', _, rfl, by simp⟩
  | num n =>
    cases n with
    | ofNat m =>
      obtain ⟨d, ds, hds, hdig⟩ := natChars_cons m
      exact ⟨d, ds, by simp [stringifyChars, intChars, hds],
        (digit_ne_marks d hdig).2.2.2.2.2.2.2.1⟩
    | negSucc m =>
      exact ⟨'-', natChars (m + 1), by simp [stringifyChars, intChars], by decide⟩
  | str s =>
    exact ⟨'"', escapeChars s.data ++ ['"'], by simp [stringifyChars, strChars], by decide⟩
  | arr xs => exact ⟨'[', stringifyArr xs ++ [']'], by simp [stringifyChars], by decide⟩
  | obj fs => exact ⟨'\x7b', stringifyObj fs ++ ['\x7d'], by simp [stringifyChars], by decide⟩

theorem stringifyChars_len_pos (j : Json) : 1 ≤ (stringifyChars j).length := by
  obtain ⟨c, tl, h, _⟩ := stringify_head j
  rw [h]
  simp

end Json

theorem string_mk_data (s : String) : String.mk s.data = s := rfl

namespace Json

theorem arrTail_headOK (xs : List Json) (rest : List Char) :
    ∀ c, (stringifyArrTail xs ++ ']' :: rest).head? = some c → c.isDigit = false := by
  cases xs with
  | nil =>
    intro c hc
    simp [stringifyArrTail] at hc
    subst hc
    decide
  | cons y ys =>
    intro c hc
    simp [stringifyArrTail] at hc
    subst hc
    decide

theorem objTail_headOK (fs : List (String × Json)) (rest : List Char) :
    ∀ c, (stringifyObjTail fs ++ '\x7d' :: rest).head? = some c → c.isDigit = false := by
  cases fs with
  | nil =>
    intro c hc
    simp [stringifyObjTail] at hc
    subst hc
    decide
  | cons kv fs =>
    obtain ⟨k, v⟩ := kv
    intro c hc
    simp [stringifyObjTail] at hc
    subst hc
    decide

/-- Simultaneous correctness of the six parser entry points on printer
output, by induction on the fuel. -/
theorem parseF_round : ∀ f : Nat,
    (∀ j rest, (stringifyChars j).length ≤ f →
      (∀ c, rest.head? = some c → c.isDigit = false) →
      parseValueF f (stringifyChars j ++ rest) = some (j, rest)) ∧
    (∀ xs rest, (stringifyArr xs).length + 1 ≤ f →
      parseArrF f (stringifyArr xs ++ ']' :: rest) = some (.arr xs, rest)) ∧
    (∀ xs rest, (stringifyArrTail xs).length + 1 ≤ f →
      parseArrTailF f (stringifyArrTail xs ++ ']' :: rest) = some (xs, rest)) ∧
    (∀ fs rest, (stringifyObj fs).length + 1 ≤ f →
      parseObjF f (stringifyObj fs ++ '\x7d' :: rest) = some (.obj fs, rest)) ∧
    (∀ (k : String) v rest, (stringifyChars v).length + 1 ≤ f →
      (∀ c, rest.head? = some c → c.isDigit = false) →
      parseFieldF f (strChars k ++ ':' :: stringifyChars v ++ rest) = some (k, v, rest)) ∧
    (∀ fs rest, (stringifyObjTail fs).length + 1 ≤ f →
      parseObjTailF f (stringifyObjTail fs ++ '\x7d' :: rest) = some (fs, rest)) := by
  intro f
  induction f with
  | zero =>
    refine ⟨?z1, ?z2, ?z3, ?z4, ?z5, ?z6⟩
    · intro j rest hb _
      have := stringifyChars_len_pos j
      omega
    · intro xs rest hb; omega
    · intro xs rest hb; omega
    · intro fs rest hb; omega
    · intro k v rest hb _; omega
    · intro fs rest hb; omega
  | succ f ih =>
    obtain ⟨ihV, ihA, ihT, ihO, ihF, ihOT⟩ := ih
    refine ⟨?s1, ?s2, ?s3, ?s4, ?s5, ?s6⟩
    · -- parseValueF on a printed value
      intro j rest hb hrest
      cases j with
      | null =>
        rw [show stringifyChars .null = ['n', 'u', 'l', 'l'] from by simp [stringifyChars]]
        rw [parseValueF.eq_def]
        simp [eatLit]
      | bool b =>
        cases b with
        | true =>
          rw [show stringifyChars (.bool true) = ['t', 'r', 'u', 'e'] from by
            simp [stringifyChars]]
          rw [parseValueF.eq_def]
          simp [eatLit]
        | false =>
          rw [show stringifyChars (.bool false) = ['f', 'a', 'l', 's', 'e'] from by
            simp [stringifyChars]]
          rw [parseValueF.eq_def]
          simp [eatLit]
      | num n =>
        cases n with
        | ofNat m =>
          rw [show stringifyChars (.num (Int.ofNat m)) = natChars m from by
            simp [stringifyChars, intChars]]
          obtain ⟨d, ds, hds, hdig⟩ := natChars_cons m
          obtain ⟨hn, ht, hf, hq, hm, hlb, hob, _, _, _⟩ := digit_ne_marks d hdig
          have hp := parseNatNum_natChars m rest hrest
          rw [hds] at hp ⊢
          rw [List.cons_append, parseValueF.eq_def]
          simp only [List.cons_append] at hp
          simp [hn, ht, hf, hq, hm, hlb, hob, hdig, hp]
        | negSucc m =>
          rw [show stringifyChars (.num (Int.negSucc m)) = '-' :: natChars (m + 1) from by
            simp [stringifyChars, intChars]]
          have hp := parseNatNum_natChars (m + 1) rest hrest
          rw [List.cons_append, parseValueF.eq_def]
          simp [hp]
          rw [Int.negSucc_eq]
          ring
      | str s =>
        rw [show stringifyChars (.str s) = '"' :: escapeChars s.data ++ ['"'] from by
          simp [stringifyChars, strChars]]
        rw [parseValueF.eq_def]
        simp [parseStrBody_round s.data, string_mk_data]
      | arr xs =>
        rw [show stringifyChars (.arr xs) = '[' :: stringifyArr xs ++ [']'] from by
          simp [stringifyChars]]
        rw [parseValueF.eq_def]
        have hbud : (stringifyArr xs).length + 1 ≤ f := by
          simp only [show stringifyChars (.arr xs) = '[' :: stringifyArr xs ++ [']'] from by
            simp [stringifyChars], List.length_cons, List.length_append,
            List.length_singleton] at hb
          omega
        simp [ihA xs rest hbud]
      | obj fs =>
        rw [show stringifyChars (.obj fs) = '\x7b' :: stringifyObj fs ++ ['\x7d'] from by
          simp [stringifyChars]]
        rw [parseValueF.eq_def]
        have hbud : (stringifyObj fs).length + 1 ≤ f := by
          simp only [show stringifyChars (.obj fs) = '\x7b' :: stringifyObj fs ++ ['\x7d'] from by
            simp [stringifyChars], List.length_cons, List.length_append,
            List.length_singleton] at hb
          omega
        simp [ihO fs rest hbud]
    · -- parseArrF on a printed element list
      intro xs rest hb
      cases xs with
      | nil =>
        rw [show stringifyArr ([] : List Json) = [] from by simp [stringifyArr],
          List.nil_append, parseArrF.eq_def]
        simp
      | cons x xs =>
        have hshape : stringifyArr (x :: xs) ++ ']' :: rest
            = stringifyChars x ++ (stringifyArrTail xs ++ ']' :: rest) := by
          simp [stringifyArr]
        obtain ⟨c, tl, hsx, hc⟩ := stringify_head x
        have hhead : ¬ ((stringifyChars x ++ (stringifyArrTail xs ++ ']' :: rest)).head?
            = some ']') := by
          rw [hsx]
          simp [hc]
        have hlen : 1 ≤ (stringifyChars x).length := stringifyChars_len_pos x
        have hlb : (stringifyChars x).length + (stringifyArrTail xs).length + 1 ≤ f + 1 := by
          simp only [show stringifyArr (x :: xs)
              = stringifyChars x ++ stringifyArrTail xs from by simp [stringifyArr],
            List.length_append] at hb
          omega
        rw [hshape, parseArrF.eq_def]
        simp [hhead,
          ihV x (stringifyArrTail xs ++ ']' :: rest) (by omega) (arrTail_headOK xs rest),
          ihT xs rest (by omega)]
        simp [hsx, hc]
    · -- parseArrTailF on a printed tail
      intro xs rest hb
      cases xs with
      | nil =>
        rw [show stringifyArrTail ([] : List Json) = [] from by simp [stringifyArrTail],
          List.nil_append, parseArrTailF.eq_def]
        simp
      | cons x xs =>
        have hshape : stringifyArrTail (x :: xs) ++ ']' :: rest
            = ',' :: (stringifyChars x ++ (stringifyArrTail xs ++ ']' :: rest)) := by
          simp [stringifyArrTail]
        have hlen : 1 ≤ (stringifyChars x).length := stringifyChars_len_pos x
        have hlb : (stringifyChars x).length + (stringifyArrTail xs).length + 2 ≤ f + 1 := by
          simp only [show stringifyArrTail (x :: xs)
              = ',' :: stringifyChars x ++ stringifyArrTail xs from by simp [stringifyArrTail],
            List.length_append, List.length_cons] at hb
          omega
        rw [hshape, parseArrTailF.eq_def]
        simp [ihV x (stringifyArrTail xs ++ ']' :: rest) (by omega) (arrTail_headOK xs rest),
          ihT xs rest (by omega)]
    · -- parseObjF on a printed field list
      intro fs rest hb
      cases fs with
      | nil =>
        rw [show stringifyObj ([] : List (String × Json)) = [] from by simp [stringifyObj],
          List.nil_append, parseObjF.eq_def]
        simp
      | cons kv fs =>
        obtain ⟨k, v⟩ := kv
        have hshape : stringifyObj ((k, v) :: fs) ++ '\x7d' :: rest
            = strChars k ++ ':' :: stringifyChars v ++ (stringifyObjTail fs ++ '\x7d' :: rest) := by
          simp [stringifyObj]
        have hhead : ¬ ((strChars k ++ ':' :: stringifyChars v
            ++ (stringifyObjTail fs ++ '\x7d' :: rest)).head? = some '\x7d') := by
          simp [strChars]
        have hlen : 1 ≤ (stringifyChars v).length := stringifyChars_len_pos v
        have hlb : (escapeChars k.data).length + 2 + ((stringifyChars v).length
            + ((stringifyObjTail fs).length + 1)) + 1 ≤ f + 1 := by
          simp only [show stringifyObj ((k, v) :: fs)
              = strChars k ++ ':' :: stringifyChars v ++ stringifyObjTail fs from by
                simp [stringifyObj],
            strChars, List.length_append, List.length_cons] at hb
          omega
        rw [hshape, parseObjF.eq_def]
        have hk : (strChars k).head? = some '"' := by simp [strChars]
        simp [hk]
        rw [show strChars k ++ ':' :: (stringifyChars v ++ (stringifyObjTail fs ++ '\x7d' :: rest))
            = strChars k ++ ':' :: stringifyChars v ++ (stringifyObjTail fs ++ '\x7d' :: rest) from by
          simp]
        rw [ihF k v (stringifyObjTail fs ++ '\x7d' :: rest) (by omega) (objTail_headOK fs rest)]
        simp [ihOT fs rest (by omega)]
    · -- parseFieldF on a printed field
      intro k v rest hb hrest
      have hshape : strChars k ++ ':' :: stringifyChars v ++ rest
          = '"' :: (escapeChars k.data ++ '"' :: (':' :: (stringifyChars v ++ rest))) := by
        simp [strChars]
      rw [hshape, parseFieldF.eq_def]
      simp [parseStrBody_round k.data, ihV v rest (by omega) hrest, string_mk_data]
    · -- parseObjTailF on a printed tail
      intro fs rest hb
      cases fs with
      | nil =>
        rw [show stringifyObjTail ([] : List (String × Json)) = [] from by
          simp [stringifyObjTail], List.nil_append, parseObjTailF.eq_def]
        simp
      | cons kv fs =>
        obtain ⟨k, v⟩ := kv
        have hshape : stringifyObjTail ((k, v) :: fs) ++ '\x7d' :: rest
            = ',' :: (strChars k ++ ':' :: stringifyChars v
              ++ (stringifyObjTail fs ++ '\x7d' :: rest)) := by
          simp [stringifyObjTail]
        have hlen : 1 ≤ (stringifyChars v).length := stringifyChars_len_pos v
        have hlb : (escapeChars k.data).length + 2 + ((stringifyChars v).length
            + ((stringifyObjTail fs).length + 1)) + 2 ≤ f + 1 := by
          simp only [show stringifyObjTail ((k, v) :: fs)
              = ',' :: strChars k ++ ':' :: stringifyChars v ++ stringifyObjTail fs from by
                simp [stringifyObjTail],
            strChars, List.length_append, List.length_cons] at hb
          omega
        rw [hshape, parseObjTailF.eq_def]
        simp
        rw [show strChars k ++ ':' :: (stringifyChars v ++ (stringifyObjTail fs ++ '\x7d' :: rest))
            = strChars k ++ ':' :: stringifyChars v ++ (stringifyObjTail fs ++ '\x7d' :: rest) from by
          simp]
        rw [ihF k v (stringifyObjTail fs ++ '\x7d' :: rest) (by omega) (objTail_headOK fs rest)]
        simp [ihOT fs rest (by omega)]

/-- `JSON.parse` inverts `JSON.stringify` on every modelled value. -/
theorem parse_stringify (j : Json) : parse (stringify j) = some j := by
  have h := (parseF_round ((stringifyChars j).length + 1)).1 j []
    (by omega) (by intro c hc; simp at hc)
  rw [List.append_nil] at h
  rw [parse]
  have hdata : (stringify j).data = stringifyChars j := rfl
  rw [hdata, h]

end Json

/-! ## Store lemmas -/

namespace Store

theorem getItem_removeItem_self (s : Store) (k : String) :
    getItem (removeItem s k) k = none := by
  rw [getItem, removeItem]
  have h : List.find? (fun p => p.1 == k) (List.filter (fun p => !(p.1 == k)) s) = none := by
    rw [List.find?_eq_none]
    intro x hx
    have hmem := (List.mem_filter.mp hx).2
    simp at hmem ⊢
    exact hmem
  rw [h]

theorem find?_dropKey (s : Store) (k k2 : String) (h : ¬ k2 = k) :
    List.find? (fun p => p.1 == k2) (List.filter (fun p => !(p.1 == k)) s)
      = List.find? (fun p => p.1 == k2) s := by
  induction s with
  | nil => rfl
  | cons p s ih =>
    rw [List.filter_cons]
    by_cases hp : p.1 = k
    · rw [if_neg (by simp [hp])]
      have e : ¬ ((p.1 == k2) = true) := by
        rw [hp]
        simp
        exact fun hh => h hh.symm
      rw [show List.find? (fun p => p.1 == k2) (p :: s) = List.find? (fun p => p.1 == k2) s from
        List.find?_cons_of_neg s e]
      exact ih
    · rw [if_pos (by simp [hp])]
      by_cases hp2 : p.1 = k2
      · rw [List.find?_cons_of_pos _ (by simp [hp2]), List.find?_cons_of_pos _ (by simp [hp2])]
      · rw [List.find?_cons_of_neg _ (by simp [hp2]), List.find?_cons_of_neg _ (by simp [hp2])]
        exact ih

theorem getItem_removeItem_other (s : Store) (k k2 : String) (h : ¬ k2 = k) :
    getItem (removeItem s k) k2 = getItem s k2 := by
  rw [getItem, removeItem, find?_dropKey s k k2 h, getItem]

theorem getItem_setItem_self (s : Store) (k v : String) :
    getItem (setItem s k v) k = some v := by
  rw [getItem, setItem, List.find?_append]
  have e : List.find? (fun p => p.1 == k) (List.filter (fun p => !(p.1 == k)) s) = none := by
    rw [List.find?_eq_none]
    intro x hx
    have hmem := (List.mem_filter.mp hx).2
    simp at hmem ⊢
    exact hmem
  rw [e, List.find?_cons_of_pos _ (by simp)]
  rfl

theorem getItem_setItem_other (s : Store) (k k2 v : String) (h : ¬ k2 = k) :
    getItem (setItem s k v) k2 = getItem s k2 := by
  rw [getItem, setItem, List.find?_append, find?_dropKey s k k2 h]
  have e : ¬ (((k, v) : String × String).1 == k2) = true := by
    simp
    exact fun hh => h hh.symm
  rw [show List.find? (fun p => p.1 == k2) [(k, v)] = List.find? (fun p => p.1 == k2) [] from
    List.find?_cons_of_neg [] e]
  rw [show List.find? (fun p => p.1 == k2) ([] : Store) = none from rfl, Option.or_none, getItem]

end Store

namespace TokenManager

theorem getItem_clearAll_token (s : Store) :
    Store.getItem (clearAll s) "bossup_token" = none := by
  rw [clearAll, Store.getItem_removeItem_other _ _ _ (by decide),
    Store.getItem_removeItem_self]

theorem getItem_clearAll_user (s : Store) :
    Store.getItem (clearAll s) "bossup_user" = none := by
  rw [clearAll, Store.getItem_removeItem_self]

theorem isAuthenticated_clearAll (s : Store) : isAuthenticated (clearAll s) = false := by
  rw [isAuthenticated, getToken, getItem_clearAll_token]

theorem getUserData_clearAll (s : Store) : getUserData (clearAll s) = .ok none := by
  rw [getUserData, getItem_clearAll_user]

end TokenManager

namespace Json

theorem stringify_ne_empty (j : Json) : ¬ stringify j = "" := by
  obtain ⟨c, tl, hj, _⟩ := stringify_head j
  rw [stringify, hj]
  intro hcontra
  have : (String.mk (c :: tl)).data = ("" : String).data := by rw [hcontra]
  simp at this

end Json

namespace TokenManager

theorem getUserData_set (s : Store) (j : Json) :
    getUserData (setUserData s j) = .ok (some j) := by
  rw [getUserData, setUserData, Store.getItem_setItem_self]
  simp [Json.stringify_ne_empty j, Json.parse_stringify j]

theorem getToken_setUserData (s : Store) (j : Json) :
    getToken (setUserData s j) = getToken s := by
  rw [getToken, setUserData, Store.getItem_setItem_other _ _ _ _ (by decide), getToken]

theorem getToken_setToken (s : Store) (t : String) :
    getToken (setToken s t) = some t := by
  rw [getToken, setToken, Store.getItem_setItem_self]

end TokenManager

/-! ## Header-map lemmas -/

theorem find?_jsObjSet_map_self (m : List (String × String)) (k v : String) :
    List.find? (fun q => q.1 == k)
        (m.map fun p => if (p.1 == k) = true then (k, v) else p)
      = Option.map (fun _ => (k, v)) (List.find? (fun q => q.1 == k) m) := by
  induction m with
  | nil => rfl
  | cons p m ih =>
    by_cases hp : p.1 = k
    · rw [List.map_cons, if_pos (by simp [hp]),
        show List.find? (fun q => q.1 == k) ((k, v) :: (m.map fun p =>
            if (p.1 == k) = true then (k, v) else p))
          = some (k, v) from List.find?_cons_of_pos _ (by simp),
        show List.find? (fun q => q.1 == k) (p :: m) = some p from
          List.find?_cons_of_pos _ (by simp [hp])]
      rfl
    · rw [List.map_cons, if_neg (by simp [hp]),
        show List.find? (fun q => q.1 == k) (p :: (m.map fun p =>
            if (p.1 == k) = true then (k, v) else p))
          = List.find? (fun q => q.1 == k) (m.map fun p =>
            if (p.1 == k) = true then (k, v) else p) from
          List.find?_cons_of_neg _ (by simp [hp]),
        show List.find? (fun q => q.1 == k) (p :: m)
          = List.find? (fun q => q.1 == k) m from
          List.find?_cons_of_neg _ (by simp [hp])]
      exact ih

theorem find?_jsObjSet_map_other (m : List (String × String)) (k k2 v : String)
    (h : ¬ k2 = k) :
    List.find? (fun q => q.1 == k2)
        (m.map fun p => if (p.1 == k) = true then (k, v) else p)
      = List.find? (fun q => q.1 == k2) m := by
  induction m with
  | nil => rfl
  | cons p m ih =>
    by_cases hp : p.1 = k
    · have e1 : ¬ (((k, v) : String × String).1 == k2) = true := by
        simp
        exact fun hh => h hh.symm
      have e2 : ¬ (p.1 == k2) = true := by
        rw [hp]
        simp
        exact fun hh => h hh.symm
      rw [List.map_cons, if_pos (by simp [hp]),
        show List.find? (fun q => q.1 == k2) ((k, v) :: (m.map fun p =>
            if (p.1 == k) = true then (k, v) else p))
          = List.find? (fun q => q.1 == k2) (m.map fun p =>
            if (p.1 == k) = true then (k, v) else p) from
          List.find?_cons_of_neg _ e1,
        show List.find? (fun q => q.1 == k2) (p :: m)
          = List.find? (fun q => q.1 == k2) m from List.find?_cons_of_neg _ e2]
      exact ih
    · rw [List.map_cons, if_neg (by simp [hp])]
      by_cases hp2 : p.1 = k2
      · rw [show List.find? (fun q => q.1 == k2) (p :: (m.map fun p =>
            if (p.1 == k) = true then (k, v) else p)) = some p from
            List.find?_cons_of_pos _ (by simp [hp2]),
          show List.find? (fun q => q.1 == k2) (p :: m) = some p from
            List.find?_cons_of_pos _ (by simp [hp2])]
      · rw [show List.find? (fun q => q.1 == k2) (p :: (m.map fun p =>
            if (p.1 == k) = true then (k, v) else p))
            = List.find? (fun q => q.1 == k2) (m.map fun p =>
              if (p.1 == k) = true then (k, v) else p) from
            List.find?_cons_of_neg _ (by simp [hp2]),
          show List.find? (fun q => q.1 == k2) (p :: m)
            = List.find? (fun q => q.1 == k2) m from
            List.find?_cons_of_neg _ (by simp [hp2])]
        exact ih

theorem jsObjGet_set_self (m : List (String × String)) (k v : String) :
    jsObjGet (jsObjSet m k v) k = some v := by
  rw [jsObjSet]
  by_cases h : (List.find? (fun p => p.1 == k) m).isSome
  · rw [if_pos h, jsObjGet, find?_jsObjSet_map_self]
    obtain ⟨q, hq⟩ := Option.isSome_iff_exists.mp h
    rw [hq]
    rfl
  · rw [if_neg h, jsObjGet, List.find?_append]
    have e : List.find? (fun p => p.1 == k) m = none := by
      cases he : List.find? (fun p => p.1 == k) m with
      | none => rfl
      | some q => rw [he] at h; simp at h
    rw [e, List.find?_cons_of_pos _ (by simp)]
    rfl

theorem jsObjGet_set_other (m : List (String × String)) (k k2 v : String) (h : ¬ k2 = k) :
    jsObjGet (jsObjSet m k v) k2 = jsObjGet m k2 := by
  rw [jsObjSet]
  by_cases hp : (List.find? (fun p => p.1 == k) m).isSome
  · rw [if_pos hp, jsObjGet, find?_jsObjSet_map_other m k k2 v h, jsObjGet]
  · rw [if_neg hp, jsObjGet, List.find?_append]
    have e1 : ¬ (((k, v) : String × String).1 == k2) = true := by
      simp
      exact fun hh => h hh.symm
    rw [show List.find? (fun p => p.1 == k2) [(k, v)]
        = List.find? (fun p => p.1 == k2) [] from List.find?_cons_of_neg [] e1,
      show List.find? (fun p => p.1 == k2) ([] : List (String × String)) = none from rfl,
      Option.or_none, jsObjGet]

theorem jsObjGet_foldl_absent (hs : List (String × String)) (k : String)
    (h : ∀ kv ∈ hs, ¬ kv.1 = k) :
    ∀ m, jsObjGet (hs.foldl (fun acc kv => jsObjSet acc kv.1 kv.2) m) k = jsObjGet m k := by
  induction hs with
  | nil => intro m; rfl
  | cons kv hs ih =>
    intro m
    rw [List.foldl_cons, ih (fun q hq => h q (by simp [hq])),
      jsObjGet_set_other m kv.1 k kv.2 (fun hh => h kv (by simp) hh.symm)]

/-! ## Header construction lemmas -/

theorem buildHeaders_contentType (s : Store) (hs : List (String × String))
    (h : List.find? (fun p => p.1 == "Content-Type") hs = none) :
    jsObjGet (buildHeaders s hs) "Content-Type" = some "application/json" := by
  have habs : ∀ kv ∈ hs, ¬ kv.1 = "Content-Type" := by
    intro kv hkv
    have := List.find?_eq_none.mp h kv hkv
    simpa using this
  have hmerged : jsObjGet (hs.foldl (fun acc kv => jsObjSet acc kv.1 kv.2)
      (jsObjSet [] "Content-Type" "application/json")) "Content-Type"
      = some "application/json" := by
    rw [jsObjGet_foldl_absent hs _ habs, jsObjGet_set_self]
  rw [buildHeaders]
  cases hgt : TokenManager.getToken s with
  | none => exact hmerged
  | some t =>
    by_cases ht : t = ""
    · simp [ht]
      exact hmerged
    · simp [ht]
      rw [jsObjGet_set_other _ _ _ _ (by decide)]
      exact hmerged

theorem buildHeaders_auth_token (s : Store) (hs : List (String × String)) (t : String)
    (hgt : TokenManager.getToken s = some t) (ht : ¬ t = "") :
    jsObjGet (buildHeaders s hs) "Authorization" = some ("Bearer " ++ t) := by
  rw [buildHeaders, hgt]
  simp [ht]
  rw [jsObjGet_set_self]

theorem buildHeaders_auth_absent (s : Store) (hs : List (String × String))
    (hno : TokenManager.getToken s = none ∨ TokenManager.getToken s = some "")
    (h : List.find? (fun p => p.1 == "Authorization") hs = none) :
    jsObjGet (buildHeaders s hs) "Authorization" = none := by
  have habs : ∀ kv ∈ hs, ¬ kv.1 = "Authorization" := by
    intro kv hkv
    have := List.find?_eq_none.mp h kv hkv
    simpa using this
  have hmerged : jsObjGet (hs.foldl (fun acc kv => jsObjSet acc kv.1 kv.2)
      (jsObjSet [] "Content-Type" "application/json")) "Authorization" = none := by
    rw [jsObjGet_foldl_absent hs _ habs]
    rfl
  rw [buildHeaders]
  cases hno with
  | inl hn => rw [hn]; exact hmerged
  | inr hn => rw [hn]; simp; exact hmerged

/-! ## `API.request` characterization -/

namespace API

theorem request_401 (w : World) (endpoint : String) (options : RequestOptions)
    (resp : Response) (h : resp.status = 401) :
    request w endpoint options resp
      = (⟨API_BASE_URL ++ endpoint, options.method, options.body,
          buildHeaders w.store options.headers⟩,
         ⟨TokenManager.clearAll w.store, some "/login.html"⟩, .ok none) := by
  simp [request, h]

theorem request_ok (w : World) (endpoint : String) (options : RequestOptions)
    (resp : Response) (d : Json) (h401 : ¬ resp.status = 401)
    (hp : Json.parse resp.body = some d) (hok : respOk resp.status = true) :
    request w endpoint options resp
      = (⟨API_BASE_URL ++ endpoint, options.method, options.body,
          buildHeaders w.store options.headers⟩, w, .ok (some d)) := by
  simp [request, h401, hp, hok]

theorem request_err (w : World) (endpoint : String) (options : RequestOptions)
    (resp : Response) (d : Json) (h401 : ¬ resp.status = 401)
    (hp : Json.parse resp.body = some d) (hbad : respOk resp.status = false) :
    request w endpoint options resp
      = (⟨API_BASE_URL ++ endpoint, options.method, options.body,
          buildHeaders w.store options.headers⟩, w, raisedError d) := by
  simp [request, h401, hp, hbad]

theorem request_fetchCall (w : World) (endpoint : String) (options : RequestOptions)
    (resp : Response) :
    (request w endpoint options resp).1
      = ⟨API_BASE_URL ++ endpoint, options.method, options.body,
          buildHeaders w.store options.headers⟩ := by
  by_cases h : resp.status = 401
  · rw [request_401 w endpoint options resp h]
  · cases hp : Json.parse resp.body with
    | none => simp [request, h, hp]
    | some d =>
      cases hok : respOk resp.status with
      | true => rw [request_ok w endpoint options resp d h hp hok]
      | false => rw [request_err w endpoint options resp d h hp hok]

end API

/-! ## `API.login` / `API.signup` characterization -/

theorem getField_auth (T : String) (U R : Json) :
    Json.getField (Json.obj [("access_token", .str T), ("user_id", U), ("role", R)])
        "access_token" = some (.str T)
    ∧ Json.getField (Json.obj [("access_token", .str T), ("user_id", U), ("role", R)])
        "user_id" = some U
    ∧ Json.getField (Json.obj [("access_token", .str T), ("user_id", U), ("role", R)])
        "role" = some R := by
  exact ⟨by simp [Json.getField], by simp [Json.getField], by simp [Json.getField]⟩

namespace API

theorem persistAuth_auth (s : Store) (T : String) (U R : Json) :
    persistAuth s (Json.obj [("access_token", .str T), ("user_id", U), ("role", R)])
      = TokenManager.setUserData (TokenManager.setToken s T)
          (Json.obj [("user_id", U), ("role", R)]) := by
  obtain ⟨h1, h2, h3⟩ := getField_auth T U R
  rw [persistAuth, userFields, h1, h2, h3]
  simp [Json.jsToStringU, Json.jsToString]

theorem login_eq (w : World) (email password : String) (T : String) (U R : Json)
    (status : Nat) (h1 : 200 ≤ status) (h2 : status < 300) :
    login w email password ⟨status, Json.stringify (Json.obj
        [("access_token", .str T), ("user_id", U), ("role", R)])⟩
      = (⟨API_BASE_URL ++ "/auth/login", some "POST",
          some (Json.stringify (Json.obj [("email", .str email), ("password", .str password)])),
          buildHeaders w.store []⟩,
         ⟨TokenManager.setUserData (TokenManager.setToken w.store T)
            (Json.obj [("user_id", U), ("role", R)]), w.location⟩,
         .ok (some (Json.obj [("access_token", .str T), ("user_id", U), ("role", R)]))) := by
  rw [login, request_ok w "/auth/login" _ _ _ (by show ¬ status = 401; omega)
    (Json.parse_stringify _) (by show respOk status = true; simp [respOk]; omega)]
  simp [Json.jsTruthy, persistAuth_auth w.store T U R]

theorem signup_eq (w : World) (email password role country : String)
    (fullName : Option String) (T : String) (U R : Json)
    (status : Nat) (h1 : 200 ≤ status) (h2 : status < 300) :
    signup w email password role country fullName ⟨status, Json.stringify (Json.obj
        [("access_token", .str T), ("user_id", U), ("role", R)])⟩
      = (⟨API_BASE_URL ++ "/auth/signup", some "POST",
          some (Json.stringify (Json.obj
            [("email", .str email), ("password", .str password), ("role", .str role),
             ("country", .str country),
             ("full_name", match fullName with | some n => .str n | none => .null)])),
          buildHeaders w.store []⟩,
         ⟨TokenManager.setUserData (TokenManager.setToken w.store T)
            (Json.obj [("user_id", U), ("role", R)]), w.location⟩,
         .ok (some (Json.obj [("access_token", .str T), ("user_id", U), ("role", R)]))) := by
  rw [signup.eq_def]
  simp only []
  rw [request_ok w "/auth/signup" _ _ _ (by show ¬ status = 401; omega)
    (Json.parse_stringify _) (by show respOk status = true; simp [respOk]; omega)]
  simp [Json.jsTruthy, persistAuth_auth w.store T U R]

end API

/-! ## Concrete parse evaluations -/

theorem json_parse_empty : Json.parse "" = none := by
  simp [Json.parse, Json.parseValueF]

theorem json_parse_lbrace : Json.parse "\x7b" = none := by
  simp [Json.parse, Json.parseValueF, Json.parseObjF, Json.parseFieldF]

/-! ## Claim theorems -/

/-- C1: for every call to `request`, if the HTTP response status is 401 then
the Session Store is cleared (both token and identity removed), a redirect to
the login surface is issued, and the call returns the null sentinel, with no
`Failure` raised and the result independent of the (unparsed) response
body. -/
theorem request_401_clears_session (w : World) (endpoint : String)
    (options : RequestOptions) (resp : Response) (h : resp.status = 401) :
    Store.getItem (API.request w endpoint options resp).2.1.store "bossup_token" = none ∧
    Store.getItem (API.request w endpoint options resp).2.1.store "bossup_user" = none ∧
    TokenManager.isAuthenticated (API.request w endpoint options resp).2.1.store = false ∧
    (API.request w endpoint options resp).2.1.location = some "/login.html" ∧
    (API.request w endpoint options resp).2.2 = .ok none := by
  rw [API.request_401 w endpoint options resp h]
  exact ⟨TokenManager.getItem_clearAll_token w.store,
    TokenManager.getItem_clearAll_user w.store,
    TokenManager.isAuthenticated_clearAll w.store, rfl, rfl⟩

/-- Witness for C1 at a concrete populated store, a non-JSON body and a 401
response. -/
theorem request_401_clears_session_witness :
    (API.request ⟨[("bossup_token", "tok"), ("bossup_user", "x")], none⟩ "/auth/me"
        ⟨none, none, []⟩ ⟨401, "this body is not JSON"⟩).2.2 = .ok none :=
  (request_401_clears_session ⟨[("bossup_token", "tok"), ("bossup_user", "x")], none⟩
    "/auth/me" ⟨none, none, []⟩ ⟨401, "this body is not JSON"⟩ rfl).2.2.2.2

/-- C6: for every sequence of `setToken` / `setUserData` operations followed
by a single `clearAll`, the store is unauthenticated and the identity is
absent. -/
theorem clear_after_ops_clears (s0 : Store) (ops : List SessionOp) :
    TokenManager.isAuthenticated (TokenManager.clearAll (applyOps s0 ops)) = false ∧
    TokenManager.getUserData (TokenManager.clearAll (applyOps s0 ops)) = .ok none :=
  ⟨TokenManager.isAuthenticated_clearAll _, TokenManager.getUserData_clearAll _⟩

/-- C7 counterexample: with the empty string stored as the token, a token is
present in the store yet `isAuthenticated()` is false — the check depends on
the token's contents, refuting the claimed pure presence check. -/
theorem isAuthenticated_empty_token_cx :
    TokenManager.getToken [("bossup_token", "")] = some "" ∧
    TokenManager.isAuthenticated [("bossup_token", "")] = false :=
  ⟨rfl, rfl⟩

/-- C7 amended: `isAuthenticated()` is true exactly when a *non-empty* token
is present (JavaScript `!!` truthiness); beyond non-emptiness it does not
depend on the token's contents, validity or expiry. -/
theorem isAuthenticated_iff_nonempty_token (s : Store) :
    TokenManager.isAuthenticated s = true
      ↔ ∃ t, TokenManager.getToken s = some t ∧ ¬ t = "" := by
  rw [TokenManager.isAuthenticated]
  cases h : TokenManager.getToken s with
  | none => simp
  | some t => simp

/-- C8: `clearAll` is idempotent on every store state. -/
theorem clearAll_idempotent (s : Store) :
    TokenManager.clearAll (TokenManager.clearAll s) = TokenManager.clearAll s := by
  have key : ∀ (l : Store) (k : String),
      Store.removeItem (Store.removeItem l k) k = Store.removeItem l k := by
    intro l k
    exact List.filter_eq_self.mpr (fun a ha => (List.mem_filter.mp ha).2)
  have comm : ∀ (l : Store) (k k2 : String),
      Store.removeItem (Store.removeItem l k) k2
        = Store.removeItem (Store.removeItem l k2) k := by
    intro l k k2
    rw [Store.removeItem, Store.removeItem, Store.removeItem, Store.removeItem,
      List.filter_filter, List.filter_filter]
    apply List.filter_congr
    intro a _
    exact Bool.and_comm _ _
  rw [TokenManager.clearAll, TokenManager.clearAll,
    comm (Store.removeItem (Store.removeItem s "bossup_token") "bossup_user")
      "bossup_token" "bossup_user",
    key, comm (Store.removeItem s "bossup_token") "bossup_user" "bossup_token"]
  rw [show Store.removeItem (Store.removeItem (Store.removeItem s "bossup_token")
      "bossup_token") "bossup_user"
    = Store.removeItem (Store.removeItem s "bossup_token") "bossup_user" from by rw [key]]

/-- C9: from the empty store, storing an identity alone yields a state where
the identity is readable while `isAuthenticated()` is false and no token
exists; the store accepts this decoupled state as-is. -/
theorem setUserData_alone_decoupled (j : Json) :
    TokenManager.getUserData (TokenManager.setUserData [] j) = .ok (some j) ∧
    TokenManager.isAuthenticated (TokenManager.setUserData [] j) = false ∧
    TokenManager.getToken (TokenManager.setUserData [] j) = none := by
  refine ⟨TokenManager.getUserData_set [] j, ?_, ?_⟩
  · rw [TokenManager.isAuthenticated, TokenManager.getToken_setUserData]
    rfl
  · rw [TokenManager.getToken_setUserData]
    rfl

/-- C10 counterexample: with the empty string stored under the identity key a
value *is* stored, it is not valid JSON, and yet `getUserData()` returns
absent rather than throwing — refuting "absent only for the no-value-stored
case". -/
theorem getUserData_empty_value_cx :
    Store.getItem [("bossup_user", "")] "bossup_user" = some "" ∧
    TokenManager.getUserData [("bossup_user", "")] = .ok none :=
  ⟨rfl, rfl⟩

/-- C10 amended: `getUserData()` returns absent exactly when no value or the
(falsy) empty string is stored; it is total for every stored value that is
valid JSON, returning the decoded value; and for some stored value that is
not valid JSON (here `"\x7b"`) it throws instead of returning absent. -/
theorem getUserData_spec :
    (∀ s : Store, Store.getItem s "bossup_user" = none →
      TokenManager.getUserData s = .ok none) ∧
    TokenManager.getUserData [("bossup_user", "")] = .ok none ∧
    (∀ (s : Store) (d : String) (j : Json), Store.getItem s "bossup_user" = some d →
      Json.parse d = some j → TokenManager.getUserData s = .ok (some j)) ∧
    TokenManager.getUserData [("bossup_user", "\x7b")] = .error () := by
  refine ⟨?_, rfl, ?_, ?_⟩
  · intro s h
    rw [TokenManager.getUserData, h]
  · intro s d j h hp
    rw [TokenManager.getUserData, h]
    have hne : ¬ d = "" := by
      intro he
      rw [he, json_parse_empty] at hp
      cases hp
    simp [hne, hp]
  · rw [TokenManager.getUserData,
      show Store.getItem [("bossup_user", "\x7b")] "bossup_user" = some "\x7b" from rfl]
    have hb : ¬ ("\x7b" : String) = "" := by decide
    simp [hb, json_parse_lbrace]

/-- Witness for C10's amended theorem: the valid-JSON branch evaluated at a
concrete stored serialized identity. -/
theorem getUserData_spec_witness :
    Store.getItem [("bossup_user", Json.stringify Json.null)] "bossup_user"
        = some (Json.stringify Json.null) ∧
    Json.parse (Json.stringify Json.null) = some Json.null ∧
    TokenManager.getUserData [("bossup_user", Json.stringify Json.null)]
        = .ok (some Json.null) :=
  ⟨rfl, Json.parse_stringify Json.null,
    getUserData_spec.2.2.1 [("bossup_user", Json.stringify Json.null)]
      (Json.stringify Json.null) Json.null rfl (Json.parse_stringify Json.null)⟩

/-- C2: `requireAuth` redirects to login and returns false when
unauthenticated; when authenticated with a readable identity and a provided
role list not containing the cached role, it returns false and redirects to
that role's own dashboard (INVESTOR, BUSINESS_OWNER, ADMIN mapped to their
surfaces, unknown or absent role to home); otherwise it returns true with no
redirect. -/
theorem requireAuth_guard (w : World) (rs : List String) (ud : Option Json) :
    (TokenManager.isAuthenticated w.store = false →
      ∀ roles, requireAuth w roles = .ok (⟨w.store, some "/login.html"⟩, false)) ∧
    (TokenManager.isAuthenticated w.store = true →
      TokenManager.getUserData w.store = .ok ud →
      ((roleMember rs (roleOf ud) = false →
          requireAuth w (some rs)
            = .ok (⟨w.store, some (redirectToDashboard (roleOf ud))⟩, false)) ∧
       (roleMember rs (roleOf ud) = true → requireAuth w (some rs) = .ok (w, true)) ∧
       requireAuth w none = .ok (w, true))) ∧
    redirectToDashboard (some (.str "INVESTOR")) = "/investor-dashboard.html" ∧
    redirectToDashboard (some (.str "BUSINESS_OWNER")) = "/business-dashboard.html" ∧
    redirectToDashboard (some (.str "ADMIN")) = "/admin.html" ∧
    redirectToDashboard none = "/index.html" ∧
    (∀ role : Option Json,
      (∀ s : String, role = some (.str s) →
        ¬ s = "INVESTOR" ∧ ¬ s = "BUSINESS_OWNER" ∧ ¬ s = "ADMIN") →
      redirectToDashboard role = "/index.html") := by
  refine ⟨?g1, ?g2, rfl, rfl, rfl, rfl, ?g3⟩
  · intro hf roles
    simp [requireAuth, hf]
  · intro ht hud
    refine ⟨fun hm => ?_, fun hm => ?_, ?_⟩
    · simp [requireAuth, ht, hud, hm]
    · simp [requireAuth, ht, hud, hm]
    · simp [requireAuth, ht, hud]
  · intro role h
    rw [redirectToDashboard.eq_def]
    split
    · exact absurd rfl (h "INVESTOR" rfl).1
    · exact absurd rfl (h "BUSINESS_OWNER" rfl).2.1
    · exact absurd rfl (h "ADMIN" rfl).2.2
    · rfl

/-- Witness for C2 at a concrete authenticated ADMIN session checked against
the role list consisting of ADMIN. -/
theorem requireAuth_guard_witness :
    requireAuth ⟨TokenManager.setUserData (TokenManager.setToken [] "tok")
        (Json.obj [("user_id", Json.num 1), ("role", Json.str "ADMIN")]), none⟩
      (some ["ADMIN"])
      = .ok (⟨TokenManager.setUserData (TokenManager.setToken [] "tok")
          (Json.obj [("user_id", Json.num 1), ("role", Json.str "ADMIN")]), none⟩, true) :=
  ((requireAuth_guard
      ⟨TokenManager.setUserData (TokenManager.setToken [] "tok")
        (Json.obj [("user_id", Json.num 1), ("role", Json.str "ADMIN")]), none⟩
      ["ADMIN"]
      (some (Json.obj [("user_id", Json.num 1), ("role", Json.str "ADMIN")]))).2.1
    rfl (TokenManager.getUserData_set [] _)).2.1 rfl

/-- C3 counterexample: a successful (HTTP 200) login whose `access_token` is
the empty string persists the session yet leaves `isAuthenticated()` false,
refuting the claim as stated. -/
theorem login_empty_token_cx :
    (API.login ⟨[], none⟩ "e@x.com" "pw" ⟨200, Json.stringify (Json.obj
        [("access_token", .str ""), ("user_id", .num 7), ("role", .str "INVESTOR")])⟩).2.2
      = .ok (some (Json.obj [("access_token", .str ""), ("user_id", .num 7),
          ("role", .str "INVESTOR")])) ∧
    TokenManager.isAuthenticated (API.login ⟨[], none⟩ "e@x.com" "pw"
        ⟨200, Json.stringify (Json.obj [("access_token", .str ""), ("user_id", .num 7),
          ("role", .str "INVESTOR")])⟩).2.1.store = false := by
  rw [API.login_eq ⟨[], none⟩ "e@x.com" "pw" "" (.num 7) (.str "INVESTOR") 200
    (by omega) (by omega)]
  refine ⟨rfl, ?_⟩
  rw [TokenManager.isAuthenticated, TokenManager.getToken_setUserData,
    TokenManager.getToken_setToken]
  rfl

/-- C3 amended: after a successful login or signup whose response carries a
*non-empty* access token `T`, identity `U` and role `R`, the Session Store
has `isAuthenticated()` true, `getToken()` returning `T`, and `getIdentity()`
returning the `{user_id: U, role: R}` object. -/
theorem login_signup_persist_session (w : World) (email password srole country : String)
    (fullName : Option String) (T : String) (U R : Json) (status : Nat)
    (h1 : 200 ≤ status) (h2 : status < 300) (hT : ¬ T = "") :
    (TokenManager.isAuthenticated (API.login w email password ⟨status,
        Json.stringify (Json.obj [("access_token", .str T), ("user_id", U),
          ("role", R)])⟩).2.1.store = true ∧
     TokenManager.getToken (API.login w email password ⟨status,
        Json.stringify (Json.obj [("access_token", .str T), ("user_id", U),
          ("role", R)])⟩).2.1.store = some T ∧
     TokenManager.getUserData (API.login w email password ⟨status,
        Json.stringify (Json.obj [("access_token", .str T), ("user_id", U),
          ("role", R)])⟩).2.1.store
       = .ok (some (Json.obj [("user_id", U), ("role", R)]))) ∧
    (TokenManager.isAuthenticated (API.signup w email password srole country fullName
        ⟨status, Json.stringify (Json.obj [("access_token", .str T), ("user_id", U),
          ("role", R)])⟩).2.1.store = true ∧
     TokenManager.getToken (API.signup w email password srole country fullName
        ⟨status, Json.stringify (Json.obj [("access_token", .str T), ("user_id", U),
          ("role", R)])⟩).2.1.store = some T ∧
     TokenManager.getUserData (API.signup w email password srole country fullName
        ⟨status, Json.stringify (Json.obj [("access_token", .str T), ("user_id", U),
          ("role", R)])⟩).2.1.store
       = .ok (some (Json.obj [("user_id", U), ("role", R)]))) := by
  rw [API.login_eq w email password T U R status h1 h2,
    API.signup_eq w email password srole country fullName T U R status h1 h2]
  have hauth : TokenManager.isAuthenticated
      (TokenManager.setUserData (TokenManager.setToken w.store T)
        (Json.obj [("user_id", U), ("role", R)])) = true := by
    rw [TokenManager.isAuthenticated, TokenManager.getToken_setUserData,
      TokenManager.getToken_setToken]
    simp [hT]
  have htok : TokenManager.getToken
      (TokenManager.setUserData (TokenManager.setToken w.store T)
        (Json.obj [("user_id", U), ("role", R)])) = some T := by
    rw [TokenManager.getToken_setUserData, TokenManager.getToken_setToken]
  exact ⟨⟨hauth, htok, TokenManager.getUserData_set _ _⟩,
    ⟨hauth, htok, TokenManager.getUserData_set _ _⟩⟩

/-- Witness for C3's amended theorem at a concrete non-empty token. -/
theorem login_signup_persist_session_witness :
    TokenManager.isAuthenticated (API.login ⟨[], none⟩ "e@x.com" "pw" ⟨201,
        Json.stringify (Json.obj [("access_token", .str "jwt-abc"),
          ("user_id", .num 7), ("role", .str "INVESTOR")])⟩).2.1.store = true :=
  ((login_signup_persist_session ⟨[], none⟩ "e@x.com" "pw" "INVESTOR" "NG" none
    "jwt-abc" (.num 7) (.str "INVESTOR") 201 (by omega) (by omega) (by decide)).1).1

/-- C4 counterexample: a 400 response whose body has a `detail` field that is
present but the empty string yields the generic fallback message rather than
the (empty) detail value — `data.detail || 'Request failed'` tests
truthiness, not presence. -/
theorem request_blank_detail_cx :
    Json.getField (Json.obj [("detail", .str "")]) "detail" = some (.str "") ∧
    (API.request ⟨[], none⟩ "/x" ⟨none, none, []⟩
        ⟨400, Json.stringify (Json.obj [("detail", .str "")])⟩).2.2
      = .failure "Request failed" ∧
    ¬ ("Request failed" : String) = "" := by
  refine ⟨by simp [Json.getField], ?_, by decide⟩
  rw [API.request_err ⟨[], none⟩ "/x" ⟨none, none, []⟩
    ⟨400, Json.stringify (Json.obj [("detail", .str "")])⟩
    (Json.obj [("detail", .str "")]) (by decide) (Json.parse_stringify _) (by decide)]
  simp [raisedError, errorDetailMsg, Json.getField, Json.jsTruthy]

/-- C4 amended: on a non-401, non-success response with a JSON body, `request`
raises a `Failure` whose message is the string coercion of the body's
`detail` field when that field is present and truthy, and the generic
"Request failed" fallback when it is absent or falsy; a bare-`null` body makes
the `data.detail` access itself throw a TypeError; on a success-range status
it returns the parsed body. -/
theorem request_error_message (w : World) (endpoint : String) (options : RequestOptions)
    (resp : Response) (data : Json) (hp : Json.parse resp.body = some data)
    (h401 : ¬ resp.status = 401) :
    (respOk resp.status = false →
      ((¬ data = Json.null →
        ((∀ d, Json.getField data "detail" = some d → Json.jsTruthy d = true →
            (API.request w endpoint options resp).2.2 = .failure (Json.jsToString d)) ∧
         (Json.getField data "detail" = none →
            (API.request w endpoint options resp).2.2 = .failure "Request failed") ∧
         (∀ d, Json.getField data "detail" = some d → Json.jsTruthy d = false →
            (API.request w endpoint options resp).2.2 = .failure "Request failed"))) ∧
       (data = Json.null →
          (API.request w endpoint options resp).2.2 = .typeError))) ∧
    (respOk resp.status = true →
      (API.request w endpoint options resp).2.2 = .ok (some data)) := by
  constructor
  · intro hbad
    rw [API.request_err w endpoint options resp data h401 hp hbad]
    have hnn : ∀ hne : ¬ data = Json.null,
        raisedError data = .failure (errorDetailMsg data) := by
      intro hne
      cases data
      case null => exact absurd rfl hne
      all_goals rfl
    constructor
    · intro hne
      rw [hnn hne]
      refine ⟨?d1, ?d2, ?d3⟩
      · intro d hd htr
        simp [errorDetailMsg, hd, htr]
      · intro hd
        simp [errorDetailMsg, hd]
      · intro d hd htr
        simp [errorDetailMsg, hd, htr]
    · intro he
      rw [he]
      rfl
  · intro hok
    rw [API.request_ok w endpoint options resp data h401 hp hok]

/-- Witness for C4's amended theorem: a concrete 400 response with a truthy
detail string produces exactly that failure message. -/
theorem request_error_message_witness :
    (API.request ⟨[], none⟩ "/x" ⟨none, none, []⟩
        ⟨400, Json.stringify (Json.obj [("detail", .str "boom")])⟩).2.2
      = .failure "boom" := by
  have h := (((request_error_message ⟨[], none⟩ "/x" ⟨none, none, []⟩
      ⟨400, Json.stringify (Json.obj [("detail", .str "boom")])⟩
      (Json.obj [("detail", .str "boom")]) (Json.parse_stringify _) (by decide)).1
    (by decide)).1 (by simp)).1 (.str "boom") (by simp [Json.getField])
    (by simp [Json.jsTruthy])
  rw [h]
  simp [Json.jsToString]

/-- C5 counterexample: a caller-supplied `Content-Type` header overrides the
JSON default via object spread, so not every request carries
`application/json`. -/
theorem request_content_type_override_cx :
    jsObjGet (API.request ⟨[], none⟩ "/x" ⟨none, none, [("Content-Type", "text/plain")]⟩
        ⟨401, ""⟩).1.headers "Content-Type" = some "text/plain" ∧
    ¬ ("text/plain" : String) = "application/json" := by
  refine ⟨?_, by decide⟩
  rw [API.request_fetchCall]
  rfl

/-- C5 amended: every request carries `Content-Type: application/json` unless
the caller's own headers override it; `Authorization: Bearer <token>` is
attached exactly when a non-empty token is stored (overriding caller
headers); with no non-empty token and no caller-supplied Authorization
header, no Authorization header is sent. -/
theorem request_headers (w : World) (endpoint : String) (options : RequestOptions)
    (resp : Response) :
    (List.find? (fun p => p.1 == "Content-Type") options.headers = none →
      jsObjGet (API.request w endpoint options resp).1.headers "Content-Type"
        = some "application/json") ∧
    (∀ t, TokenManager.getToken w.store = some t → ¬ t = "" →
      jsObjGet (API.request w endpoint options resp).1.headers "Authorization"
        = some ("Bearer " ++ t)) ∧
    ((TokenManager.getToken w.store = none ∨ TokenManager.getToken w.store = some "") →
      List.find? (fun p => p.1 == "Authorization") options.headers = none →
      jsObjGet (API.request w endpoint options resp).1.headers "Authorization" = none) := by
  rw [API.request_fetchCall]
  exact ⟨fun h => buildHeaders_contentType w.store options.headers h,
    fun t hgt ht => buildHeaders_auth_token w.store options.headers t hgt ht,
    fun hno h => buildHeaders_auth_absent w.store options.headers hno h⟩

/-- Witness for C5's amended theorem: concrete request with an unrelated
caller header and a stored non-empty token. -/
theorem request_headers_witness :
    jsObjGet (API.request ⟨[("bossup_token", "tok")], none⟩ "/x"
        ⟨none, none, [("X-Trace", "1")]⟩ ⟨200, "0"⟩).1.headers "Authorization"
      = some ("Bearer " ++ "tok") :=
  (request_headers ⟨[("bossup_token", "tok")], none⟩ "/x"
    ⟨none, none, [("X-Trace", "1")]⟩ ⟨200, "0"⟩).2.1 "tok" rfl (by decide)

/-- Witness for C7's amended theorem at a concrete non-empty stored token. -/
theorem isAuthenticated_iff_nonempty_token_witness :
    TokenManager.isAuthenticated [("bossup_token", "tok")] = true :=
  (isAuthenticated_iff_nonempty_token [("bossup_token", "tok")]).mpr ⟨"tok", rfl, by decide⟩
